import Mathlib

/-!
Shallow embedding of the two notebooks of the repository
(an AlexNet construction and a vanilla-RNN / LSTM construction on
TensorFlow 1.x) together with proofs about the claims of the spec.

Tensors of a single example are modelled as lists of rationals; a weight
matrix is stored as the list of its columns, so that the TensorFlow
operation xw_plus_b(x, W, b), whose entry j is sum_i x i * W i j + b j,
becomes mapping the dot product with x over the columns and adding b.
Activation functions (tf.sigmoid, tf.tanh) are framework primitives; the
definitions are parameterised over them, and theorems quantify over
arbitrary activations, or assume only facts that are true of the real
sigmoid and tanh.
-/

set_option autoImplicit false

/-- Elementwise sum of two vectors (tf broadcasting is not needed here:
all uses have equal lengths). -/
def vecAdd (u v : List ℚ) : List ℚ := List.zipWith (· + ·) u v

/-- Dot product of two vectors. -/
def dot (u v : List ℚ) : ℚ := (List.zipWith (· * ·) u v).sum

/-- Scalar multiple of a vector; this is tf.matmul of the 1-row batch [[c]]
with a 1-row weight matrix whose single row is v. -/
def smul (c : ℚ) (v : List ℚ) : List ℚ := v.map (fun a => c * a)

/-- Model of tf.nn.xw_plus_b(x, W, b): the vector x·W + b, where the
matrix W is stored as its list of columns. -/
def xwPlusB (x : List ℚ) (W : List (List ℚ)) (b : List ℚ) : List ℚ :=
  vecAdd (W.map (dot x)) b

/-- Elementwise product of two vectors (the * of two equal-shape tensors). -/
def hadamard (u v : List ℚ) : List ℚ := List.zipWith (· * ·) u v

/-- SEQ_LENGTH = 10, from the data-preparation cell of the RNN notebook. -/
def SEQ_LENGTH : Nat := 10

/-- HIDDEN_DIM = 4, set identically before the vanilla-RNN block and the
LSTM block of the RNN notebook. -/
def HIDDEN_DIM : Nat := 4

/-- One iteration of the vanilla-RNN loop:
hidden = sigmoid(matmul(x_j, W_hx) + xw_plus_b(hidden, W_hh, b_h)),
with the activation σ a parameter (the source passes tf.sigmoid). -/
def rnnStep (σ : ℚ → ℚ) (W_hx : List ℚ) (W_hh : List (List ℚ))
    (b_h : List ℚ) (x : ℚ) (h : List ℚ) : List ℚ :=
  (vecAdd (smul x W_hx) (xwPlusB h W_hh b_h)).map σ

/-- The generic loop shape of both recurrence cells: starting from an
initial carried value, apply the step to each input in order and collect
every new carried value (the Python loop appends after each update). -/
def scanSteps {α ι : Type} (step : ι → α → α) : List ι → α → List α
  | [], _ => []
  | x :: xs, h =>
    let h' := step x h
    h' :: scanSteps step xs h'

/-- The carried value after t iterations of the loop on inputs xs,
starting from h0 (the t-th hidden state, with the 0-th being h0); d is
the out-of-range default of getD, never reached in actual use. -/
def iterSteps {α ι : Type} (step : ι → α → α) (d : ι)
    (xs : List ι) (h0 : α) : Nat → α
  | 0 => h0
  | t + 1 => step (xs.getD t d) (iterSteps step d xs h0 t)

/-- The stacked hiddens tensor of the vanilla RNN (one batch row): the
loop runs for j in range(SEQ_LENGTH-1) over seq_input[:,j,:], starting
from hidden_0 = zeros of size HIDDEN_DIM. -/
def rnnHiddens (σ : ℚ → ℚ) (W_hx : List ℚ) (W_hh : List (List ℚ))
    (b_h : List ℚ) (xs : List ℚ) : List (List ℚ) :=
  scanSteps (rnnStep σ W_hx W_hh b_h) (xs.take (SEQ_LENGTH - 1))
    (List.replicate HIDDEN_DIM 0)

/-- The outputs tensor of the RNN notebook (one batch row): the hiddens
are reshaped to rows of size HIDDEN_DIM, pushed through
xw_plus_b(·, W_yh, b_y) with W_yh of shape [HIDDEN_DIM, 1], and reshaped
back to one scalar per time step. -/
def rnnOutputs (σ : ℚ → ℚ) (W_hx : List ℚ) (W_hh : List (List ℚ))
    (b_h : List ℚ) (W_yh : List ℚ) (b_y : ℚ) (xs : List ℚ) : List ℚ :=
  (rnnHiddens σ W_hx W_hh b_h xs).map (fun h => dot h W_yh + b_y)

/-- predict = outputs[:,-1,:]: the Python index -1 is index length-1. -/
def rnnPredict (σ : ℚ → ℚ) (W_hx : List ℚ) (W_hh : List (List ℚ))
    (b_h : List ℚ) (W_yh : List ℚ) (b_y : ℚ) (xs : List ℚ) : ℚ :=
  let os := rnnOutputs σ W_hx W_hh b_h W_yh b_y xs
  os.getD (os.length - 1) 0

/-- tf.losses.mean_squared_error of two equal-length batches of scalars. -/
def mseLoss (labels preds : List ℚ) : ℚ :=
  ((List.zipWith (fun a b => (a - b) ^ 2) labels preds).sum) / labels.length

/-- The RNN training loss over a batch of sequences:
MSE(labels = seq_input[:,-1,:], predictions = predict). -/
def rnnLoss (σ : ℚ → ℚ) (W_hx : List ℚ) (W_hh : List (List ℚ))
    (b_h : List ℚ) (W_yh : List ℚ) (b_y : ℚ)
    (batch : List (List ℚ)) : ℚ :=
  mseLoss (batch.map (fun xs => xs.getD (xs.length - 1) 0))
    (batch.map (rnnPredict σ W_hx W_hh b_h W_yh b_y))

/-- The weight variables of the LSTM cell, one field per tf.get_variable
of the LSTM weights cell; each W_*x has shape [1, HIDDEN_DIM] and is
stored as its single row, each W_*h has shape [HIDDEN_DIM, HIDDEN_DIM]
and is stored as its list of columns. -/
structure LSTMWeights where
  W_gx : List ℚ
  W_gh : List (List ℚ)
  b_g : List ℚ
  W_ix : List ℚ
  W_ih : List (List ℚ)
  b_i : List ℚ
  W_fx : List ℚ
  W_fh : List (List ℚ)
  b_f : List ℚ
  W_ox : List ℚ
  W_oh : List (List ℚ)
  b_o : List ℚ

/-- The four gate values of one LSTM iteration. -/
structure LSTMGateVals where
  g : List ℚ
  i : List ℚ
  f : List ℚ
  o : List ℚ

/-- The gate computations of one iteration of the LSTM loop, exactly as
in the source.  Note the forget gate: the source computes the preactivation
f = tf.matmul(seq_input[:,j,:], W_fx) + tf.nn.xw_plus_b(hidden, W_fh, b_f)
and then immediately overwrites it with f = tf.sigmoid(g, name='f'),
sigmoid of the (already tanh-activated) candidate g; the preactivation is
dead code, kept here as the unused binding. -/
def lstmGates (σ φ : ℚ → ℚ) (w : LSTMWeights) (x : ℚ)
    (hidden : List ℚ) : LSTMGateVals :=
  let g := (vecAdd (smul x w.W_gx) (xwPlusB hidden w.W_gh w.b_g)).map φ
  let i := (vecAdd (smul x w.W_ix) (xwPlusB hidden w.W_ih w.b_i)).map σ
  let _fPre := vecAdd (smul x w.W_fx) (xwPlusB hidden w.W_fh w.b_f)
  let f := g.map σ
  let o := (vecAdd (smul x w.W_ox) (xwPlusB hidden w.W_oh w.b_o)).map σ
  { g := g, i := i, f := f, o := o }

/-- One iteration of the LSTM loop on the carried pair (state, hidden):
state = g*i + f*state and hidden = o*tanh(state), with σ standing for
tf.sigmoid and φ for tf.tanh. -/
def lstmStep (σ φ : ℚ → ℚ) (w : LSTMWeights) (x : ℚ)
    (sh : List ℚ × List ℚ) : List ℚ × List ℚ :=
  let gv := lstmGates σ φ w x sh.2
  let state' := vecAdd (hadamard gv.g gv.i) (hadamard gv.f sh.1)
  let hidden' := hadamard gv.o (state'.map φ)
  (state', hidden')

/-- The stacked hiddens tensor of the LSTM (one batch row): the loop runs
for j in range(SEQ_LENGTH-1) over seq_input[:,j,:], with state_0 and
hidden_0 both zeros of size HIDDEN_DIM. -/
def lstmHiddens (σ φ : ℚ → ℚ) (w : LSTMWeights) (xs : List ℚ) :
    List (List ℚ) :=
  (scanSteps (lstmStep σ φ w) (xs.take (SEQ_LENGTH - 1))
    (List.replicate HIDDEN_DIM 0, List.replicate HIDDEN_DIM 0)).map
    (fun sh => sh.2)

/-- The outputs tensor of the LSTM block, built from its hiddens the same
way as in the vanilla RNN. -/
def lstmOutputs (σ φ : ℚ → ℚ) (w : LSTMWeights) (W_yh : List ℚ)
    (b_y : ℚ) (xs : List ℚ) : List ℚ :=
  (lstmHiddens σ φ w xs).map (fun h => dot h W_yh + b_y)

/-- predict = outputs[:,-1,:] for the LSTM block. -/
def lstmPredict (σ φ : ℚ → ℚ) (w : LSTMWeights) (W_yh : List ℚ)
    (b_y : ℚ) (xs : List ℚ) : ℚ :=
  let os := lstmOutputs σ φ w W_yh b_y xs
  os.getD (os.length - 1) 0

/-- The LSTM training loss over a batch of sequences:
MSE(labels = seq_input[:,-1,:], predictions = predict). -/
def lstmLoss (σ φ : ℚ → ℚ) (w : LSTMWeights) (W_yh : List ℚ) (b_y : ℚ)
    (batch : List (List ℚ)) : ℚ :=
  mseLoss (batch.map (fun xs => xs.getD (xs.length - 1) 0))
    (batch.map (lstmPredict σ φ w W_yh b_y))

/-- Modelled from the spec: the published forget-gate equation stated in
the claim and in the notebook's own markdown,
f(t) = sigmoid(W_fx*x(t) + W_fh*h(t-1) + b_f); this is the equation the
code was meant to implement for the forget gate and is to be compared
with the f field of lstmGates. -/
def lstmForgetGateSpec (σ : ℚ → ℚ) (w : LSTMWeights) (x : ℚ)
    (hidden : List ℚ) : List ℚ :=
  (vecAdd (smul x w.W_fx) (xwPlusB hidden w.W_fh w.b_f)).map σ

/-- The zero vector of size HIDDEN_DIM = 4. -/
def zeroVec4 : List ℚ := [0, 0, 0, 0]

/-- The all-ones vector of size HIDDEN_DIM = 4. -/
def onesVec4 : List ℚ := [1, 1, 1, 1]

/-- The zero HIDDEN_DIM × HIDDEN_DIM matrix (as its list of columns). -/
def zeroMat4 : List (List ℚ) := [zeroVec4, zeroVec4, zeroVec4, zeroVec4]

/-- Concrete LSTM weights exhibiting the forget-gate slip: every weight is
zero except the forget bias b_f, which is all ones. -/
def bugWeights : LSTMWeights :=
  { W_gx := zeroVec4, W_gh := zeroMat4, b_g := zeroVec4
    W_ix := zeroVec4, W_ih := zeroMat4, b_i := zeroVec4
    W_fx := zeroVec4, W_fh := zeroMat4, b_f := onesVec4
    W_ox := zeroVec4, W_oh := zeroMat4, b_o := zeroVec4 }

/-- Modelled from the claim's words for comparison with the code: the
textbook recurrence h(0) = 0 and
h(t) = sigmoid(W_hx*x(t) + W_hh*h(t-1) + b_h) for t ≥ 1, where x(t) is
the t-th sequence element (1-based, so x(t+1) is xs.getD t 0) and W_hh,
stored as its list of columns, acts on h(t-1) by mapping the dot product
over the columns. -/
def rnnHSpec (σ : ℚ → ℚ) (W_hx : List ℚ) (W_hh : List (List ℚ))
    (b_h : List ℚ) (xs : List ℚ) : Nat → List ℚ
  | 0 => List.replicate HIDDEN_DIM 0
  | t + 1 =>
    (vecAdd (smul (xs.getD t 0) W_hx)
      (vecAdd (W_hh.map (dot (rnnHSpec σ W_hx W_hh b_h xs t))) b_h)).map σ

/-- Shape well-formedness of the LSTM weight variables, from the
tf.get_variable shapes of the LSTM weights cell: every weight has
HIDDEN_DIM output entries / columns. -/
def LSTMWeights.wellShaped (w : LSTMWeights) : Prop :=
  w.W_gx.length = HIDDEN_DIM ∧ w.W_gh.length = HIDDEN_DIM ∧
  w.b_g.length = HIDDEN_DIM ∧ w.W_ix.length = HIDDEN_DIM ∧
  w.W_ih.length = HIDDEN_DIM ∧ w.b_i.length = HIDDEN_DIM ∧
  w.W_fx.length = HIDDEN_DIM ∧ w.W_fh.length = HIDDEN_DIM ∧
  w.b_f.length = HIDDEN_DIM ∧ w.W_ox.length = HIDDEN_DIM ∧
  w.W_oh.length = HIDDEN_DIM ∧ w.b_o.length = HIDDEN_DIM

/-- Activation argument of a tf.layers call. -/
inductive Activation
  | relu
  | linear
deriving DecidableEq

/-- Padding argument of a convolution or pooling call. -/
inductive Padding
  | same
  | valid
deriving DecidableEq

/-- Parameters of one tf.layers.conv2d call. -/
structure ConvParams where
  filters : ℕ
  kernelH : ℕ
  kernelW : ℕ
  strideH : ℕ
  strideW : ℕ
  padding : Padding
  activation : Activation
deriving DecidableEq

/-- conv1: 96 filters, kernel 11x11, strides (4,4), SAME, relu. -/
def conv1Params : ConvParams := ⟨96, 11, 11, 4, 4, Padding.same, Activation.relu⟩

/-- conv2: 256 filters, kernel 5x5, strides (2,2), SAME, relu. -/
def conv2Params : ConvParams := ⟨256, 5, 5, 2, 2, Padding.same, Activation.relu⟩

/-- conv3: 384 filters, kernel 3x3, strides (2,2), VALID, relu. -/
def conv3Params : ConvParams := ⟨384, 3, 3, 2, 2, Padding.valid, Activation.relu⟩

/-- conv4: 384 filters, kernel 3x3, strides (1,1), SAME, relu. -/
def conv4Params : ConvParams := ⟨384, 3, 3, 1, 1, Padding.same, Activation.relu⟩

/-- conv5: 256 filters, kernel 3x3, strides (1,1), SAME, relu. -/
def conv5Params : ConvParams := ⟨256, 3, 3, 1, 1, Padding.same, Activation.relu⟩

/-- Parameters of one tf.nn.lrn call. -/
structure LRNParams where
  depthRadius : ℕ
  bias : ℚ
  alpha : ℚ
  beta : ℚ
deriving DecidableEq

/-- lrn1 = tf.nn.lrn(conv1, depth_radius=5, bias=2, alpha=1e-4, beta=0.75). -/
def lrn1Params : LRNParams := ⟨5, 2, 0.0001, 0.75⟩

/-- lrn2 = tf.nn.lrn(conv2, depth_radius=5, bias=2, alpha=1e-4, beta=0.75). -/
def lrn2Params : LRNParams := ⟨5, 2, 0.0001, 0.75⟩

/-- Parameters of one tf.layers.max_pooling2d call (padding is the
default 'valid'). -/
structure PoolParams where
  poolH : ℕ
  poolW : ℕ
  strideH : ℕ
  strideW : ℕ
deriving DecidableEq

/-- maxpool1: pool_size [2,2], strides (1,1). -/
def maxpool1Params : PoolParams := ⟨2, 2, 1, 1⟩

/-- maxpool2: pool_size [2,2], strides (1,1). -/
def maxpool2Params : PoolParams := ⟨2, 2, 1, 1⟩

/-- The tensors of the AlexNet notebook's graph, one constructor per
named tensor or training stage. -/
inductive ANode
  | imageBatch
  | labelBatch
  | conv1
  | lrn1
  | maxpool1
  | conv2
  | lrn2
  | maxpool2
  | conv3
  | conv4
  | conv5
  | flatten
  | dense1
  | dense2
  | softmaxOut
  | lossNode
  | gradsNode
  | decayedGradsNode
  | trainNode
  | predictionNode
  | accuracyNode
deriving DecidableEq

/-- The dataflow of the AlexNet notebook: the tensors each node is
computed from, read off the corresponding cells. -/
def ANode.inputs : ANode → List ANode
  | .imageBatch => []
  | .labelBatch => []
  | .conv1 => [.imageBatch]
  | .lrn1 => [.conv1]
  | .maxpool1 => [.lrn1]
  | .conv2 => [.maxpool1]
  | .lrn2 => [.conv2]
  | .maxpool2 => [.lrn2]
  | .conv3 => [.maxpool2]
  | .conv4 => [.conv3]
  | .conv5 => [.conv4]
  | .flatten => [.conv5]
  | .dense1 => [.flatten]
  | .dense2 => [.dense1]
  | .softmaxOut => [.dense2]
  | .lossNode => [.labelBatch, .softmaxOut]
  | .gradsNode => [.lossNode]
  | .decayedGradsNode => [.gradsNode]
  | .trainNode => [.decayedGradsNode]
  | .predictionNode => [.softmaxOut]
  | .accuracyNode => [.predictionNode, .labelBatch]

/-- The tensors of the RNN/LSTM notebook's graph (both blocks build the
same dataflow shape). -/
inductive RNode
  | seqInput
  | hiddensNode
  | outputsNode
  | predictNode
  | lossNode
  | trainNode
deriving DecidableEq

/-- The dataflow of the RNN/LSTM notebook: loss is
mean_squared_error(labels=seq_input[:,-1,:], predictions=predict) and
train_step is AdamOptimizer minimizing that loss. -/
def RNode.inputs : RNode → List RNode
  | .seqInput => []
  | .hiddensNode => [.seqInput]
  | .outputsNode => [.hiddensNode]
  | .predictNode => [.outputsNode]
  | .lossNode => [.seqInput, .predictNode]
  | .trainNode => [.lossNode]

/-- Reachability along the inputs relation of a dataflow graph, with a
fuel bound larger than any path length. -/
def reachB {ν : Type} [BEq ν] (inputs : ν → List ν) : Nat → ν → ν → Bool
  | 0, _, _ => false
  | fuel + 1, a, b => a == b || (inputs a).any (fun c => reachB inputs fuel c b)

/-- Dataflow dependence in the AlexNet graph. -/
def alexDepends (a b : ANode) : Bool := reachB ANode.inputs 30 a b

/-- Dataflow dependence in the RNN graph. -/
def rnnDepends (a b : RNode) : Bool := reachB RNode.inputs 10 a b

/-- The gradient value actually applied for a variable by the AlexNet
train cell: grads_vars = [(grad + 0.0005*0.01*var, var) for ...]. -/
def alexAppliedGrad (grad v : ℚ) : ℚ := grad + 0.0005 * 0.01 * v

/-- Output spatial size of a SAME-padded convolution or pooling:
ceil(input / stride). -/
def convOutSame (i s : ℕ) : ℕ := (i + s - 1) / s

/-- Output spatial size of a VALID convolution or pooling:
floor((input - kernel) / stride) + 1. -/
def convOutValid (i k s : ℕ) : ℕ := (i - k) / s + 1

/-- Spatial size after conv1 (input images are 224x224). -/
def alexConv1Spatial : ℕ := convOutSame 224 conv1Params.strideH

/-- Spatial size after maxpool1. -/
def alexPool1Spatial : ℕ :=
  convOutValid alexConv1Spatial maxpool1Params.poolH maxpool1Params.strideH

/-- Spatial size after conv2. -/
def alexConv2Spatial : ℕ := convOutSame alexPool1Spatial conv2Params.strideH

/-- Spatial size after maxpool2. -/
def alexPool2Spatial : ℕ :=
  convOutValid alexConv2Spatial maxpool2Params.poolH maxpool2Params.strideH

/-- Spatial size after conv3 (VALID padding). -/
def alexConv3Spatial : ℕ :=
  convOutValid alexPool2Spatial conv3Params.kernelH conv3Params.strideH

/-- Spatial size after conv4. -/
def alexConv4Spatial : ℕ := convOutSame alexConv3Spatial conv4Params.strideH

/-- Spatial size after conv5. -/
def alexConv5Spatial : ℕ := convOutSame alexConv4Spatial conv5Params.strideH

/-- The flattened feature count hard-coded by the reshape of fc_layer_1:
tf.reshape(conv5, [-1, 13*13*256]). -/
def FLAT_DIM : ℕ := 13 * 13 * 256

/-- Number of elements of a tensor shape. -/
def numel (s : List ℕ) : ℕ := s.prod

/-- Inference of the -1 dimension of a tf.reshape: the element count
divided by the product of the known dimensions, defined when it divides
evenly. -/
def inferDim (count known : ℕ) : Option ℕ :=
  if known ≠ 0 ∧ count % known = 0 then some (count / known) else none

/-- units=1000 of the final dense layer of the AlexNet notebook. -/
def NUM_CLASSES : ℕ := 1000

/-- Index of the first occurrence of the maximum of a list (the
tf.argmax semantics along one axis; 0 on the empty list). -/
def argmaxList : List ℚ → ℕ
  | [] => 0
  | [_] => 0
  | a :: b :: l =>
    let j := argmaxList (b :: l)
    if a < (b :: l).getD j 0 then j + 1 else 0

/-- Model of tf.argmax(input, axis=0) on a [n, k] tensor given as its
list of n rows: for each of the k columns, the row index maximizing that
column. -/
def tfArgmax0 (k : ℕ) (rows : List (List ℚ)) : List ℕ :=
  (List.range k).map (fun c => argmaxList (rows.map (fun r => r.getD c 0)))

/-- prediction = tf.argmax(input=softmax, axis=0, ...), where softmax is
the [n, 1000] score tensor given as its list of rows. -/
def alexPrediction (scores : List (List ℚ)) : List ℕ :=
  tfArgmax0 NUM_CLASSES scores

/-- Model of tf.equal with numpy-style broadcasting of two rank-1 integer
tensors: elementwise when the lengths agree, broadcasting a length-1
operand otherwise, and a shape error (none) in every other case. -/
def tfEqualBroadcast (a b : List ℕ) : Option (List Bool) :=
  if a.length = b.length then some (List.zipWith (fun x y => x == y) a b)
  else if b.length = 1 then some (a.map (fun x => x == b.getD 0 0))
  else if a.length = 1 then some (b.map (fun y => a.getD 0 0 == y))
  else none

/-- tf.to_float of a boolean. -/
def boolToQ (x : Bool) : ℚ := if x then 1 else 0

/-- tf.reduce_mean of a rank-1 boolean tensor cast to float. -/
def meanOfBools (l : List Bool) : ℚ := (l.map boolToQ).sum / l.length

/-- accuracy = tf.reduce_mean(tf.to_float(tf.equal(prediction,
label_batch))), as an Option because tf.equal can fail on incompatible
shapes. -/
def alexAccuracy (scores : List (List ℚ)) (labels : List ℕ) : Option ℚ :=
  (tfEqualBroadcast (alexPrediction scores) labels).map meanOfBools

/-- tf.nn.relu. -/
def relu (q : ℚ) : ℚ := max 0 q

/-- One tf.layers.dense call on one input row: the affine map through W
(stored as its list of columns) and b, followed by the activation. -/
def denseLayer (act : ℚ → ℚ) (W : List (List ℚ)) (b : List ℚ)
    (x : List ℚ) : List ℚ :=
  (xwPlusB x W b).map act

/-- The output of the layer named softmax in the AlexNet notebook:
tf.layers.dense(inputs=dense2, units=1000, activation=tf.nn.relu, ...),
on one input row x (a row of dense2). -/
def softmaxLayerOut (W : List (List ℚ)) (b : List ℚ) (x : List ℚ) :
    List ℚ :=
  denseLayer relu W b x

/-- Data types appearing in the notebooks' placeholders. -/
inductive DType
  | float32
  | int32
deriving DecidableEq

/-- Shape of the image placeholder: tf.placeholder(tf.float32,
[None,224,224,3], 'image_batch'). -/
def imageBatchShape : List (Option ℕ) := [none, some 224, some 224, some 3]

/-- dtype of the image placeholder. -/
def imageBatchDType : DType := DType.float32

/-- Shape of the label placeholder: tf.placeholder(tf.int32, [None],
'label_batch'). -/
def labelBatchShape : List (Option ℕ) := [none]

/-- dtype of the label placeholder. -/
def labelBatchDType : DType := DType.int32

/-- Whether a placeholder shape (with None wildcards) accepts a concrete
tensor shape. -/
def shapeAccepts : List (Option ℕ) → List ℕ → Bool
  | [], [] => true
  | none :: ps, _ :: s => shapeAccepts ps s
  | some d :: ps, e :: s => d == e && shapeAccepts ps s
  | _, _ => false

/-! ## General lemmas about the loop shape -/

theorem scanSteps_length {α ι : Type} (step : ι → α → α) :
    ∀ (xs : List ι) (h0 : α), (scanSteps step xs h0).length = xs.length := by
  intro xs
  induction xs with
  | nil => intro h0; rfl
  | cons x xs ih =>
    intro h0
    show (step x h0 :: scanSteps step xs (step x h0)).length = xs.length + 1
    rw [List.length_cons, ih]

theorem iterSteps_cons {α ι : Type} (step : ι → α → α) (d : ι) (x : ι)
    (xs : List ι) (h0 : α) :
    ∀ t, iterSteps step d xs (step x h0) t =
      iterSteps step d (x :: xs) h0 (t + 1) := by
  intro t
  induction t with
  | zero => rfl
  | succ t ih =>
    show step (xs.getD t d) (iterSteps step d xs (step x h0) t) =
      step ((x :: xs).getD (t + 1) d) (iterSteps step d (x :: xs) h0 (t + 1))
    rw [ih, List.getD_cons_succ]

theorem scanSteps_eq_iterSteps {α ι : Type} (step : ι → α → α) (d : ι) :
    ∀ (xs : List ι) (h0 : α),
      scanSteps step xs h0 =
        (List.range xs.length).map (fun t => iterSteps step d xs h0 (t + 1)) := by
  intro xs
  induction xs with
  | nil => intro h0; rfl
  | cons x xs ih =>
    intro h0
    rw [List.length_cons, List.range_succ_eq_map, List.map_cons, List.map_map]
    show step x h0 :: scanSteps step xs (step x h0) = _
    rw [ih (step x h0)]
    refine congrArg₂ List.cons rfl (List.map_congr_left ?_)
    intro t _
    exact iterSteps_cons step d x xs h0 (t + 1)

theorem getD_take {ι : Type} (d : ι) :
    ∀ (k n : Nat) (xs : List ι), n < k →
      (xs.take k).getD n d = xs.getD n d := by
  intro k
  induction k with
  | zero => intro n xs h; omega
  | succ k ih =>
    intro n xs h
    cases xs with
    | nil => rw [List.take_nil]
    | cons x xs =>
      cases n with
      | zero => rfl
      | succ n =>
        rw [List.take_succ_cons, List.getD_cons_succ, List.getD_cons_succ]
        exact ih n xs (by omega)

theorem iterSteps_take {α ι : Type} (step : ι → α → α) (d : ι) (k : Nat)
    (xs : List ι) (h0 : α) :
    ∀ n, n ≤ k → iterSteps step d (xs.take k) h0 n = iterSteps step d xs h0 n := by
  intro n
  induction n with
  | zero => intro; rfl
  | succ n ih =>
    intro hn
    show step ((xs.take k).getD n d) _ = step (xs.getD n d) _
    rw [getD_take d k n xs (by omega), ih (by omega)]

theorem scanSteps_invariant {α ι : Type} (step : ι → α → α) (P : α → Prop)
    (hstep : ∀ x h, P (step x h)) :
    ∀ (xs : List ι) (h0 : α) (y : α), y ∈ scanSteps step xs h0 → P y := by
  intro xs
  induction xs with
  | nil => intro h0 y hy; simp [scanSteps] at hy
  | cons x xs ih =>
    intro h0 y hy
    rw [show scanSteps step (x :: xs) h0 =
      step x h0 :: scanSteps step xs (step x h0) from rfl] at hy
    rcases List.mem_cons.mp hy with h | h
    · exact h ▸ hstep x h0
    · exact ih (step x h0) y h

theorem scanSteps_invariant_carried {α ι : Type} (step : ι → α → α)
    (P : α → Prop) (hstep : ∀ x h, P h → P (step x h)) :
    ∀ (xs : List ι) (h0 : α), P h0 → ∀ y ∈ scanSteps step xs h0, P y := by
  intro xs
  induction xs with
  | nil => intro h0 _ y hy; simp [scanSteps] at hy
  | cons x xs ih =>
    intro h0 h0P y hy
    rw [show scanSteps step (x :: xs) h0 =
      step x h0 :: scanSteps step xs (step x h0) from rfl] at hy
    rcases List.mem_cons.mp hy with h | h
    · exact h ▸ hstep x h0 h0P
    · exact ih (step x h0) (hstep x h0 h0P) y h

theorem iterSteps_rnn_eq_spec (σ : ℚ → ℚ) (W_hx : List ℚ)
    (W_hh : List (List ℚ)) (b_h : List ℚ) (xs : List ℚ) :
    ∀ n, iterSteps (rnnStep σ W_hx W_hh b_h) 0 xs
        (List.replicate HIDDEN_DIM 0) n = rnnHSpec σ W_hx W_hh b_h xs n := by
  intro n
  induction n with
  | zero => rfl
  | succ n ih =>
    show rnnStep σ W_hx W_hh b_h (xs.getD n 0)
      (iterSteps (rnnStep σ W_hx W_hh b_h) 0 xs (List.replicate HIDDEN_DIM 0) n) = _
    rw [ih]
    rfl

/-! ## Claim theorems -/

/-- C1: the claim states that every LSTM gate is computed by the standard
published gating equation from its own preactivation, in particular
f(t) = sigmoid(W_fx*x(t) + W_fh*h(t-1) + b_f).  The code instead computes
f = tf.sigmoid(g): for any activation pair with φ 0 = 0 and σ 0 ≠ σ 1
(both true of the real tanh and sigmoid), at the concrete weights
bugWeights (all zero except b_f = ones) with x = 0 and h(t-1) = 0, the
forget gate the code computes differs from the claimed equation. -/
theorem c1_lstm_forget_gate_bug (σ φ : ℚ → ℚ) (hφ : φ 0 = 0)
    (hσ : σ 0 ≠ σ 1) :
    (lstmGates σ φ bugWeights 0 zeroVec4).f ≠
      lstmForgetGateSpec σ bugWeights 0 zeroVec4 := by
  have h1 : (lstmGates σ φ bugWeights 0 zeroVec4).f =
      [σ (φ 0), σ (φ 0), σ (φ 0), σ (φ 0)] := by
    simp [lstmGates, bugWeights, vecAdd, smul, xwPlusB, dot,
      zeroVec4, onesVec4, zeroMat4]
  have h2 : lstmForgetGateSpec σ bugWeights 0 zeroVec4 =
      [σ 1, σ 1, σ 1, σ 1] := by
    simp [lstmForgetGateSpec, bugWeights, vecAdd, smul, xwPlusB, dot,
      zeroVec4, onesVec4, zeroMat4]
  rw [h1, h2, hφ]
  intro hc
  injection hc with h _
  exact hσ h

/-- C1 witness: the hypotheses of c1_lstm_forget_gate_bug hold at the
identity activation pair. -/
theorem c1_lstm_forget_gate_bug_witness :
    (fun q : ℚ => q) 0 = 0 ∧ (fun q : ℚ => q) 0 ≠ (fun q : ℚ => q) 1 ∧
      (lstmGates (fun q : ℚ => q) (fun q : ℚ => q) bugWeights 0 zeroVec4).f ≠
        lstmForgetGateSpec (fun q : ℚ => q) bugWeights 0 zeroVec4 :=
  ⟨rfl, by norm_num,
    c1_lstm_forget_gate_bug (fun q => q) (fun q => q) rfl (by norm_num)⟩

/-- C6: for every activation and weights and every input sequence of
length SEQ_LENGTH, the vanilla RNN's stacked hiddens tensor is exactly
the nine states h(1), ..., h(9) in time order of the textbook recurrence
h(t) = σ(W_hx*x(t) + W_hh*h(t-1) + b_h) with h(0) = 0. -/
theorem c6_vanilla_rnn_recurrence (σ : ℚ → ℚ) (W_hx : List ℚ)
    (W_hh : List (List ℚ)) (b_h : List ℚ) (xs : List ℚ)
    (hlen : xs.length = SEQ_LENGTH) :
    rnnHSpec σ W_hx W_hh b_h xs 0 = List.replicate HIDDEN_DIM 0 ∧
    rnnHiddens σ W_hx W_hh b_h xs =
      (List.range (SEQ_LENGTH - 1)).map
        (fun t => rnnHSpec σ W_hx W_hh b_h xs (t + 1)) := by
  refine ⟨rfl, ?_⟩
  rw [rnnHiddens, scanSteps_eq_iterSteps _ 0]
  have hl : (xs.take (SEQ_LENGTH - 1)).length = SEQ_LENGTH - 1 := by
    rw [List.length_take, hlen]
    decide
  rw [hl]
  refine List.map_congr_left ?_
  intro t ht
  have ht9 : t + 1 ≤ SEQ_LENGTH - 1 := List.mem_range.mp ht
  rw [iterSteps_take _ 0 (SEQ_LENGTH - 1) xs _ (t + 1) ht9]
  exact iterSteps_rnn_eq_spec σ W_hx W_hh b_h xs (t + 1)

/-- C6 witness: the length hypothesis holds at a concrete ten-element
sequence and the recurrence equality is produced by the theorem there. -/
theorem c6_vanilla_rnn_recurrence_witness :
    (List.replicate SEQ_LENGTH (1 : ℚ)).length = SEQ_LENGTH ∧
      (rnnHSpec (fun q => q) zeroVec4 zeroMat4 zeroVec4
          (List.replicate SEQ_LENGTH (1 : ℚ)) 0 =
        List.replicate HIDDEN_DIM 0 ∧
      rnnHiddens (fun q => q) zeroVec4 zeroMat4 zeroVec4
          (List.replicate SEQ_LENGTH (1 : ℚ)) =
        (List.range (SEQ_LENGTH - 1)).map
          (fun t => rnnHSpec (fun q => q) zeroVec4 zeroMat4 zeroVec4
            (List.replicate SEQ_LENGTH (1 : ℚ)) (t + 1))) :=
  ⟨by simp,
    c6_vanilla_rnn_recurrence (fun q => q) zeroVec4 zeroMat4 zeroVec4
      (List.replicate SEQ_LENGTH (1 : ℚ)) (by simp)⟩

/-- C10: for every activations and weights, both recurrence loops produce
exactly SEQ_LENGTH - 1 = 9 stacked hidden states; the prediction is
unchanged by any change of the final element x_9 (only x_0..x_8 are fed
to the network); and the training loss on a batch of one sequence is the
squared difference between the sequence's final element x_9 and the
prediction. -/
theorem c10_nine_iterations_no_leakage (σ φ : ℚ → ℚ) (W_hx : List ℚ)
    (W_hh : List (List ℚ)) (b_h : List ℚ) (W_yh : List ℚ) (b_y : ℚ)
    (w : LSTMWeights) (xs ys : List ℚ) (hlen : xs.length = SEQ_LENGTH)
    (hagree : xs.take (SEQ_LENGTH - 1) = ys.take (SEQ_LENGTH - 1)) :
    (rnnHiddens σ W_hx W_hh b_h xs).length = SEQ_LENGTH - 1 ∧
    (lstmHiddens σ φ w xs).length = SEQ_LENGTH - 1 ∧
    rnnPredict σ W_hx W_hh b_h W_yh b_y xs =
      rnnPredict σ W_hx W_hh b_h W_yh b_y ys ∧
    lstmPredict σ φ w W_yh b_y xs = lstmPredict σ φ w W_yh b_y ys ∧
    rnnLoss σ W_hx W_hh b_h W_yh b_y [xs] =
      (xs.getD (SEQ_LENGTH - 1) 0 -
        rnnPredict σ W_hx W_hh b_h W_yh b_y xs) ^ 2 ∧
    lstmLoss σ φ w W_yh b_y [xs] =
      (xs.getD (SEQ_LENGTH - 1) 0 - lstmPredict σ φ w W_yh b_y xs) ^ 2 := by
  have hl9 : (xs.take (SEQ_LENGTH - 1)).length = SEQ_LENGTH - 1 := by
    rw [List.length_take, hlen]
    decide
  refine ⟨?_, ?_, ?_, ?_, ?_, ?_⟩
  · rw [rnnHiddens, scanSteps_length, hl9]
  · rw [lstmHiddens, List.length_map, scanSteps_length, hl9]
  · simp only [rnnPredict, rnnOutputs, rnnHiddens, hagree]
  · simp only [lstmPredict, lstmOutputs, lstmHiddens, hagree]
  · simp only [rnnLoss, mseLoss, List.map_cons, List.map_nil,
      List.zipWith_cons_cons, List.zipWith_nil_right, List.sum_cons,
      List.sum_nil, List.length_cons, List.length_nil, hlen]
    push_cast
    ring
  · simp only [lstmLoss, mseLoss, List.map_cons, List.map_nil,
      List.zipWith_cons_cons, List.zipWith_nil_right, List.sum_cons,
      List.sum_nil, List.length_cons, List.length_nil, hlen]
    push_cast
    ring

/-- C10 witness: the hypotheses hold at two concrete ten-element
sequences that agree on their first nine elements, and the loop-length
conclusion is produced by the theorem there. -/
theorem c10_nine_iterations_no_leakage_witness :
    (List.replicate SEQ_LENGTH (0 : ℚ)).length = SEQ_LENGTH ∧
      (List.replicate SEQ_LENGTH (0 : ℚ)).take (SEQ_LENGTH - 1) =
        (List.replicate SEQ_LENGTH (0 : ℚ)).take (SEQ_LENGTH - 1) ∧
      (rnnHiddens (fun q => q) zeroVec4 zeroMat4 zeroVec4
        (List.replicate SEQ_LENGTH (0 : ℚ))).length = SEQ_LENGTH - 1 :=
  ⟨by simp, rfl,
    (c10_nine_iterations_no_leakage (fun q => q) (fun q => q) zeroVec4
      zeroMat4 zeroVec4 zeroVec4 0 bugWeights
      (List.replicate SEQ_LENGTH (0 : ℚ))
      (List.replicate SEQ_LENGTH (0 : ℚ))
      (by simp) rfl).1⟩

/-! ## Argmax lemmas and claim C3 -/

theorem argmaxList_spec (l : List ℚ) (hne : l ≠ []) :
    argmaxList l < l.length ∧
    ∀ i, i < l.length → l.getD i 0 ≤ l.getD (argmaxList l) 0 := by
  induction l with
  | nil => exact absurd rfl hne
  | cons a t ih =>
    cases t with
    | nil =>
      refine ⟨by simp [argmaxList], ?_⟩
      intro i hi
      have hi0 : i = 0 := by
        simp only [List.length_cons, List.length_nil] at hi
        omega
      subst hi0
      exact le_refl _
    | cons b l' =>
      obtain ⟨ihlt, ihmax⟩ := ih (by simp)
      by_cases hc : a < (b :: l').getD (argmaxList (b :: l')) 0
      · have harg : argmaxList (a :: b :: l') = argmaxList (b :: l') + 1 := by
          simp only [argmaxList]
          rw [if_pos hc]
        refine ⟨?_, ?_⟩
        · rw [harg, List.length_cons]
          omega
        · intro i hi
          rw [harg, List.getD_cons_succ]
          cases i with
          | zero => exact le_of_lt hc
          | succ i =>
            rw [List.getD_cons_succ]
            refine ihmax i ?_
            simp only [List.length_cons] at hi ⊢
            omega
      · have harg : argmaxList (a :: b :: l') = 0 := by
          simp only [argmaxList]
          rw [if_neg hc]
        refine ⟨?_, ?_⟩
        · rw [harg]
          simp
        · intro i hi
          rw [harg, List.getD_cons_zero]
          cases i with
          | zero => exact le_refl _
          | succ i =>
            rw [List.getD_cons_succ]
            refine le_trans (ihmax i ?_) (not_lt.mp hc)
            simp only [List.length_cons] at hi ⊢
            omega

theorem getD_map_range {β : Type} (f : ℕ → β) (d : β) (k c : ℕ)
    (hc : c < k) : ((List.range k).map f).getD c d = f c := by
  have hc2 : c < ((List.range k).map f).length := by
    simpa using hc
  rw [List.getD_eq_getElem _ _ hc2]
  simp

theorem getD_col (c : ℕ) :
    ∀ (rows : List (List ℚ)) (i : ℕ), i < rows.length →
      (rows.map (fun r => r.getD c 0)).getD i 0 = (rows.getD i []).getD c 0 := by
  intro rows
  induction rows with
  | nil => intro i h; simp at h
  | cons r rows ih =>
    intro i h
    cases i with
    | zero => rfl
    | succ i =>
      rw [List.map_cons, List.getD_cons_succ, List.getD_cons_succ]
      refine ih i ?_
      simp only [List.length_cons] at h
      omega

/-- C3: for every nonempty batch of score rows, the code's 'prediction'
(tf.argmax on axis 0, the batch axis) is a length-NUM_CLASSES = 1000
vector whose entry for class c is a valid row index maximizing column c
over the batch — not one predicted class per image — and when the label
batch happens to have length 1000 the code's 'accuracy' is the mean of
the broadcast elementwise equality of this vector with the labels. -/
theorem c3_argmax_axis0 (scores : List (List ℚ)) (hne : scores ≠ []) :
    (alexPrediction scores).length = NUM_CLASSES ∧
    (∀ c, c < NUM_CLASSES →
      (alexPrediction scores).getD c 0 < scores.length ∧
      ∀ i, i < scores.length →
        (scores.getD i []).getD c 0 ≤
          (scores.getD ((alexPrediction scores).getD c 0) []).getD c 0) ∧
    (∀ labels : List ℕ, labels.length = NUM_CLASSES →
      alexAccuracy scores labels =
        some ((List.zipWith (fun p l => boolToQ (p == l))
          (alexPrediction scores) labels).sum / (NUM_CLASSES : ℚ))) := by
  have hplen : (alexPrediction scores).length = NUM_CLASSES := by
    simp [alexPrediction, tfArgmax0]
  have hcolne : ∀ c : ℕ, scores.map (fun r => r.getD c 0) ≠ [] := by
    intro c hcol
    exact hne (List.map_eq_nil_iff.mp hcol)
  have hcoll : ∀ c : ℕ, (scores.map (fun r => r.getD c 0)).length =
      scores.length := by
    intro c
    exact List.length_map scores _
  have hpred : ∀ c, c < NUM_CLASSES → (alexPrediction scores).getD c 0 =
      argmaxList (scores.map (fun r => r.getD c 0)) := by
    intro c hck
    show ((List.range NUM_CLASSES).map
      (fun c => argmaxList (scores.map (fun r => r.getD c 0)))).getD c 0 = _
    exact getD_map_range _ 0 NUM_CLASSES c hck
  refine ⟨hplen, ?_, ?_⟩
  · intro c hck
    obtain ⟨hlt, hmax⟩ := argmaxList_spec (scores.map (fun r => r.getD c 0))
      (hcolne c)
    refine ⟨?_, ?_⟩
    · rw [hpred c hck]
      rw [hcoll c] at hlt
      exact hlt
    · intro i hi
      rw [hpred c hck]
      have h1 := hmax i (by rw [hcoll c]; exact hi)
      rw [getD_col c scores i hi] at h1
      rw [getD_col c scores _ (by rw [hcoll c] at hlt; exact hlt)] at h1
      exact h1
  · intro labels hlab
    have hll : (alexPrediction scores).length = labels.length := by
      rw [hplen, hlab]
    have hbody : List.zipWith (fun x y => x == y) (alexPrediction scores)
        labels = List.zipWith (fun x y : ℕ => x == y) (alexPrediction scores)
          labels := rfl
    rw [alexAccuracy, tfEqualBroadcast, if_pos hll]
    rw [Option.map_some']
    refine congrArg some ?_
    rw [meanOfBools]
    rw [List.map_zipWith]
    have hzlen : (List.zipWith (fun x y : ℕ => x == y) (alexPrediction scores)
        labels).length = NUM_CLASSES := by
      rw [List.length_zipWith, hplen, hlab]
      exact min_self _
    rw [hzlen]

/-- C3 witness: the nonemptiness hypothesis holds at a one-row batch of
scores, and the prediction length there is produced by the theorem. -/
theorem c3_argmax_axis0_witness :
    ([[(0 : ℚ)]] : List (List ℚ)) ≠ [] ∧
      (alexPrediction [[(0 : ℚ)]]).length = NUM_CLASSES :=
  ⟨by simp, (c3_argmax_axis0 [[(0 : ℚ)]] (by simp)).1⟩

/-! ## Lemmas for claims C4 and C5 -/

theorem zipWith_replicate_same {α β γ : Type} (f : α → β → γ) (n : ℕ)
    (a : α) (b : β) :
    List.zipWith f (List.replicate n a) (List.replicate n b) =
      List.replicate n (f a b) := by
  induction n with
  | zero => rfl
  | succ n ih => simp [List.replicate_succ, ih]

theorem vecAdd_length (u v : List ℚ) :
    (vecAdd u v).length = min u.length v.length :=
  List.length_zipWith _ _ _

theorem smul_length (c : ℚ) (v : List ℚ) : (smul c v).length = v.length :=
  List.length_map _ _

theorem xwPlusB_length (x : List ℚ) (W : List (List ℚ)) (b : List ℚ) :
    (xwPlusB x W b).length = min W.length b.length := by
  rw [xwPlusB, vecAdd_length, List.length_map]

theorem rnnStep_length (σ : ℚ → ℚ) (W_hx : List ℚ) (W_hh : List (List ℚ))
    (b_h : List ℚ) (x : ℚ) (h : List ℚ) (h1 : W_hx.length = HIDDEN_DIM)
    (h2 : W_hh.length = HIDDEN_DIM) (h3 : b_h.length = HIDDEN_DIM) :
    (rnnStep σ W_hx W_hh b_h x h).length = HIDDEN_DIM := by
  rw [rnnStep, List.length_map, vecAdd_length, smul_length, xwPlusB_length,
    h1, h2, h3]
  simp

theorem hadamard_length (u v : List ℚ) :
    (hadamard u v).length = min u.length v.length :=
  List.length_zipWith _ _ _

theorem lstmStep_length (σ φ : ℚ → ℚ) (w : LSTMWeights) (x : ℚ)
    (sh : List ℚ × List ℚ) (hw : w.wellShaped)
    (hs : sh.1.length = HIDDEN_DIM) :
    (lstmStep σ φ w x sh).1.length = HIDDEN_DIM ∧
    (lstmStep σ φ w x sh).2.length = HIDDEN_DIM := by
  obtain ⟨h1, h2, h3, h4, h5, h6, h7, h8, h9, h10, h11, h12⟩ := hw
  have hg : ((vecAdd (smul x w.W_gx) (xwPlusB sh.2 w.W_gh w.b_g)).map φ).length
      = HIDDEN_DIM := by
    rw [List.length_map, vecAdd_length, smul_length, xwPlusB_length,
      h1, h2, h3]
    simp
  have hi : ((vecAdd (smul x w.W_ix) (xwPlusB sh.2 w.W_ih w.b_i)).map σ).length
      = HIDDEN_DIM := by
    rw [List.length_map, vecAdd_length, smul_length, xwPlusB_length,
      h4, h5, h6]
    simp
  have ho : ((vecAdd (smul x w.W_ox) (xwPlusB sh.2 w.W_oh w.b_o)).map σ).length
      = HIDDEN_DIM := by
    rw [List.length_map, vecAdd_length, smul_length, xwPlusB_length,
      h10, h11, h12]
    simp
  have hg2 : (lstmGates σ φ w x sh.2).g.length = HIDDEN_DIM := by
    rw [show (lstmGates σ φ w x sh.2).g =
      (vecAdd (smul x w.W_gx) (xwPlusB sh.2 w.W_gh w.b_g)).map φ from rfl]
    exact hg
  have hi2 : (lstmGates σ φ w x sh.2).i.length = HIDDEN_DIM := by
    rw [show (lstmGates σ φ w x sh.2).i =
      (vecAdd (smul x w.W_ix) (xwPlusB sh.2 w.W_ih w.b_i)).map σ from rfl]
    exact hi
  have ho2 : (lstmGates σ φ w x sh.2).o.length = HIDDEN_DIM := by
    rw [show (lstmGates σ φ w x sh.2).o =
      (vecAdd (smul x w.W_ox) (xwPlusB sh.2 w.W_oh w.b_o)).map σ from rfl]
    exact ho
  have hf2 : (lstmGates σ φ w x sh.2).f.length = HIDDEN_DIM := by
    rw [show (lstmGates σ φ w x sh.2).f =
      (lstmGates σ φ w x sh.2).g.map σ from rfl, List.length_map]
    exact hg2
  have hstate : (lstmStep σ φ w x sh).1.length = HIDDEN_DIM := by
    rw [show (lstmStep σ φ w x sh).1 =
      vecAdd (hadamard (lstmGates σ φ w x sh.2).g (lstmGates σ φ w x sh.2).i)
        (hadamard (lstmGates σ φ w x sh.2).f sh.1) from rfl]
    rw [vecAdd_length, hadamard_length, hadamard_length, hg2, hi2, hf2, hs]
    simp
  refine ⟨hstate, ?_⟩
  rw [show (lstmStep σ φ w x sh).2 =
    hadamard (lstmGates σ φ w x sh.2).o ((lstmStep σ φ w x sh).1.map φ)
      from rfl]
  rw [hadamard_length, List.length_map, ho2, hstate]
  simp

/-- C4: the output layer named softmax applies relu, not softmax: on
every input row its entries are max(0, a) for the affine preactivations
a, hence all entries are nonnegative, and there are weights and inputs
for which the output row does not sum to 1 (so no softmax normalization
happens in this layer). -/
theorem c4_softmax_layer_is_relu :
    (∀ (W : List (List ℚ)) (b x : List ℚ),
      softmaxLayerOut W b x = (xwPlusB x W b).map (fun a => max 0 a)) ∧
    (∀ (W : List (List ℚ)) (b x : List ℚ) (y : ℚ),
      y ∈ softmaxLayerOut W b x → 0 ≤ y) ∧
    (∃ (W : List (List ℚ)) (b x : List ℚ), W.length = NUM_CLASSES ∧
      b.length = NUM_CLASSES ∧ (softmaxLayerOut W b x).sum ≠ 1) := by
  refine ⟨fun W b x => rfl, ?_, ?_⟩
  · intro W b x y hy
    rw [softmaxLayerOut, denseLayer] at hy
    obtain ⟨a, _, ha⟩ := List.mem_map.mp hy
    rw [← ha]
    exact le_max_left 0 a
  · refine ⟨List.replicate NUM_CLASSES [0], List.replicate NUM_CLASSES 0,
      [0], by simp, by simp, ?_⟩
    have hout : softmaxLayerOut (List.replicate NUM_CLASSES [0])
        (List.replicate NUM_CLASSES 0) [0] = List.replicate NUM_CLASSES 0 := by
      rw [softmaxLayerOut, denseLayer, xwPlusB, List.map_replicate]
      have hdot : dot [(0 : ℚ)] [(0 : ℚ)] = 0 := by simp [dot]
      rw [hdot, vecAdd, zipWith_replicate_same, List.map_replicate]
      norm_num [relu]
    rw [hout, List.sum_replicate]
    simp

/-- C4 witness: the membership hypothesis of the nonnegativity part holds
at a concrete weight, bias and input, where the layer's output is [5]. -/
theorem c4_softmax_layer_is_relu_witness :
    (5 : ℚ) ∈ softmaxLayerOut [[1]] [2] [3] ∧ (0 : ℚ) ≤ 5 :=
  ⟨by norm_num [softmaxLayerOut, denseLayer, xwPlusB, vecAdd, dot, relu],
    c4_softmax_layer_is_relu.2.1 [[1]] [2] [3] 5
      (by norm_num [softmaxLayerOut, denseLayer, xwPlusB, vecAdd, dot, relu])⟩

/-- C5: the AlexNet image placeholder accepts every batch shape
[n,224,224,3] of float32 images with one int32 label per image (shape
[n]), and every hidden-state vector produced by the vanilla-RNN loop or
the LSTM loop with the notebook's weight shapes is HIDDEN_DIM = 4
dimensional. -/
theorem c5_tensor_shapes :
    (∀ n : ℕ, shapeAccepts imageBatchShape [n, 224, 224, 3] = true) ∧
    imageBatchDType = DType.float32 ∧
    (∀ n : ℕ, shapeAccepts labelBatchShape [n] = true) ∧
    labelBatchDType = DType.int32 ∧
    HIDDEN_DIM = 4 ∧
    (∀ (σ : ℚ → ℚ) (W_hx : List ℚ) (W_hh : List (List ℚ)) (b_h : List ℚ)
      (xs : List ℚ) (h : List ℚ), W_hx.length = HIDDEN_DIM →
      W_hh.length = HIDDEN_DIM → b_h.length = HIDDEN_DIM →
      h ∈ rnnHiddens σ W_hx W_hh b_h xs → h.length = HIDDEN_DIM) ∧
    (∀ (σ φ : ℚ → ℚ) (w : LSTMWeights) (xs : List ℚ) (h : List ℚ),
      w.wellShaped → h ∈ lstmHiddens σ φ w xs → h.length = HIDDEN_DIM) := by
  refine ⟨?_, rfl, ?_, rfl, rfl, ?_, ?_⟩
  · intro n
    simp [imageBatchShape, shapeAccepts]
  · intro n
    simp [labelBatchShape, shapeAccepts]
  · intro σ W_hx W_hh b_h xs h h1 h2 h3 hmem
    rw [rnnHiddens] at hmem
    exact scanSteps_invariant _ (fun h => h.length = HIDDEN_DIM)
      (fun x h => rnnStep_length σ W_hx W_hh b_h x h h1 h2 h3) _ _ h hmem
  · intro σ φ w xs h hw hmem
    rw [lstmHiddens] at hmem
    obtain ⟨sh, hsh, hh⟩ := List.mem_map.mp hmem
    have hP := scanSteps_invariant_carried (lstmStep σ φ w)
      (fun sh => sh.1.length = HIDDEN_DIM ∧ sh.2.length = HIDDEN_DIM)
      (fun x sh hsh => lstmStep_length σ φ w x sh hw hsh.1)
      (xs.take (SEQ_LENGTH - 1))
      (List.replicate HIDDEN_DIM 0, List.replicate HIDDEN_DIM 0)
      (by constructor <;> simp) sh hsh
    rw [← hh]
    exact hP.2

/-- C5 witness: the weight-shape and membership hypotheses of the RNN
part hold at concrete zero weights and the one-element input sequence. -/
theorem c5_tensor_shapes_witness :
    zeroVec4.length = HIDDEN_DIM ∧ zeroMat4.length = HIDDEN_DIM ∧
      zeroVec4 ∈ rnnHiddens (fun q => q) zeroVec4 zeroMat4 zeroVec4 [0] ∧
      zeroVec4.length = HIDDEN_DIM :=
  ⟨rfl, rfl,
    by simp [rnnHiddens, scanSteps, rnnStep, vecAdd, smul, xwPlusB, dot,
      zeroVec4, zeroMat4,
      show List.replicate HIDDEN_DIM (0 : ℚ) = [0, 0, 0, 0] from rfl],
    c5_tensor_shapes.2.2.2.2.2.1 (fun q => q) zeroVec4 zeroMat4 zeroVec4
      [0] zeroVec4 rfl rfl rfl
      (by simp [rnnHiddens, scanSteps, rnnStep, vecAdd, smul, xwPlusB, dot,
        zeroVec4, zeroMat4,
        show List.replicate HIDDEN_DIM (0 : ℚ) = [0, 0, 0, 0] from rfl])⟩

/-- C7: in the AlexNet notebook the relu outputs of convolution layers 1
and 2 each feed a Local Response Normalization with depth_radius 5,
bias 2, alpha 1e-4, beta 0.75 (the two LRN calls have identical
parameters), and each LRN result feeds a max pool with 2x2 window and
1x1 strides. -/
theorem c7_lrn_and_maxpool :
    conv1Params.activation = Activation.relu ∧
    conv2Params.activation = Activation.relu ∧
    ANode.inputs ANode.lrn1 = [ANode.conv1] ∧
    ANode.inputs ANode.maxpool1 = [ANode.lrn1] ∧
    ANode.inputs ANode.lrn2 = [ANode.conv2] ∧
    ANode.inputs ANode.maxpool2 = [ANode.lrn2] ∧
    lrn1Params = LRNParams.mk 5 2 (1 / 10000) (3 / 4) ∧
    lrn2Params = lrn1Params ∧
    maxpool1Params = PoolParams.mk 2 2 1 1 ∧
    maxpool2Params = maxpool1Params := by
  refine ⟨rfl, rfl, rfl, rfl, rfl, rfl, ?_, rfl, rfl, rfl⟩
  norm_num [lrn1Params, LRNParams.mk.injEq]

/-- C8 counterexample: the claim says the parameter update applies the
gradients of exactly the loss; in the AlexNet train cell the value
applied for a variable with gradient 0 and value 1 is
0 + 0.0005*0.01*1 ≠ 0, so what is applied is not the gradient itself. -/
theorem c8_exact_gradients_counterexample : alexAppliedGrad 0 1 ≠ 0 := by
  norm_num [alexAppliedGrad]

/-- C8 (amended): both graphs are linear pipelines: the loss is computed
from exactly the final layer-stack output and the input labels/targets,
the prediction readout depends on the layer-stack output and not on the
loss or training stages, the training op depends on the loss and not on
the prediction, and the AlexNet update applies the gradients of that
loss after adding the weight-decay term 0.0005*0.01*var to each. -/
theorem c8_linear_pipeline :
    ANode.inputs ANode.lossNode = [ANode.labelBatch, ANode.softmaxOut] ∧
    ANode.inputs ANode.predictionNode = [ANode.softmaxOut] ∧
    ANode.inputs ANode.decayedGradsNode = [ANode.gradsNode] ∧
    alexDepends ANode.trainNode ANode.lossNode = true ∧
    alexDepends ANode.lossNode ANode.softmaxOut = true ∧
    alexDepends ANode.lossNode ANode.labelBatch = true ∧
    alexDepends ANode.predictionNode ANode.softmaxOut = true ∧
    alexDepends ANode.predictionNode ANode.lossNode = false ∧
    alexDepends ANode.lossNode ANode.predictionNode = false ∧
    alexDepends ANode.trainNode ANode.predictionNode = false ∧
    (∀ g v : ℚ, alexAppliedGrad g v = g + 0.0005 * 0.01 * v) ∧
    RNode.inputs RNode.lossNode = [RNode.seqInput, RNode.predictNode] ∧
    RNode.inputs RNode.predictNode = [RNode.outputsNode] ∧
    rnnDepends RNode.trainNode RNode.lossNode = true ∧
    rnnDepends RNode.lossNode RNode.predictNode = true ∧
    rnnDepends RNode.predictNode RNode.lossNode = false ∧
    (∀ (σ : ℚ → ℚ) (W_hx : List ℚ) (W_hh : List (List ℚ))
      (b_h W_yh : List ℚ) (b_y : ℚ) (batch : List (List ℚ)),
      rnnLoss σ W_hx W_hh b_h W_yh b_y batch =
        mseLoss (batch.map (fun xs => xs.getD (xs.length - 1) 0))
          (batch.map (rnnPredict σ W_hx W_hh b_h W_yh b_y))) :=
  ⟨rfl, rfl, rfl, by decide, by decide, by decide, by decide, by decide,
    by decide, by decide, fun g v => rfl, rfl, rfl, by decide, by decide,
    by decide, fun σ W_hx W_hh b_h W_yh b_y batch => rfl⟩

/-- C9: the computed conv5 spatial size is 13, matching the hard-coded
flatten width 13*13*256 = 43264 per image; the RNN/LSTM outputs contain
SEQ_LENGTH-1 scalars per sequence; and both reshape boundaries of the
recurrent output block infer the -1 dimension consistently and preserve
the element count. -/
theorem c9_reshape_boundaries :
    alexConv5Spatial = 13 ∧
    alexConv5Spatial * alexConv5Spatial * conv5Params.filters = FLAT_DIM ∧
    FLAT_DIM = 43264 ∧
    (∀ (σ : ℚ → ℚ) (W_hx : List ℚ) (W_hh : List (List ℚ))
      (b_h W_yh : List ℚ) (b_y : ℚ) (xs : List ℚ),
      (rnnOutputs σ W_hx W_hh b_h W_yh b_y xs).length =
        min (SEQ_LENGTH - 1) xs.length) ∧
    (∀ b : ℕ,
      inferDim (numel [b, SEQ_LENGTH - 1, HIDDEN_DIM]) HIDDEN_DIM =
        some (b * (SEQ_LENGTH - 1)) ∧
      numel [b, SEQ_LENGTH - 1, HIDDEN_DIM] =
        numel [b * (SEQ_LENGTH - 1), HIDDEN_DIM] ∧
      inferDim (numel [b * (SEQ_LENGTH - 1), 1]) ((SEQ_LENGTH - 1) * 1) =
        some b ∧
      numel [b * (SEQ_LENGTH - 1), 1] = numel [b, SEQ_LENGTH - 1, 1]) := by
  refine ⟨by decide, by decide, by decide, ?_, ?_⟩
  · intro σ W_hx W_hh b_h W_yh b_y xs
    rw [rnnOutputs, List.length_map, rnnHiddens, scanSteps_length,
      List.length_take]
  · intro b
    refine ⟨?_, ?_, ?_, ?_⟩
    · have hcond : HIDDEN_DIM ≠ 0 ∧
          numel [b, SEQ_LENGTH - 1, HIDDEN_DIM] % HIDDEN_DIM = 0 := by
        simp only [numel, List.prod_cons, List.prod_nil, HIDDEN_DIM,
          SEQ_LENGTH]
        omega
      rw [inferDim, if_pos hcond]
      refine congrArg some ?_
      simp only [numel, List.prod_cons, List.prod_nil, HIDDEN_DIM, SEQ_LENGTH]
      omega
    · simp only [numel, List.prod_cons, List.prod_nil, HIDDEN_DIM, SEQ_LENGTH]
      ring
    · have hcond : (SEQ_LENGTH - 1) * 1 ≠ 0 ∧
          numel [b * (SEQ_LENGTH - 1), 1] % ((SEQ_LENGTH - 1) * 1) = 0 := by
        simp only [numel, List.prod_cons, List.prod_nil, SEQ_LENGTH]
        omega
      rw [inferDim, if_pos hcond]
      refine congrArg some ?_
      simp only [numel, List.prod_cons, List.prod_nil, SEQ_LENGTH]
      omega
    · simp only [numel, List.prod_cons, List.prod_nil, SEQ_LENGTH]
      ring
